import Mathlib

/-!
Verification of the thread-attribute extraction pipeline
(`get-thread-attrs`): a shallow embedding of the Python sources
(`llm_interface.py`, `thread_logic.py`, `lambda_function.py`, `db.py`,
`utils.py`) as pure Lean functions, with external effects (DynamoDB
lookups, the model HTTP call, invocation writes, rate-limit lambda
invocations) modelled as explicit inputs and an event trace.
-/

/-! ## Character-level string helpers

Python string primitives used by the sources, modelled structurally on
`List Char` so that they evaluate in the kernel.
-/

/-- Python `s.split(c)` for a single-character separator: splits on every
occurrence, keeping empty segments (`"".split(c) == ['']`). -/
def splitOnChar (c : Char) : List Char → List (List Char)
  | [] => [[]]
  | x :: xs =>
    if x = c then [] :: splitOnChar c xs
    else
      match splitOnChar c xs with
      | [] => [[x]]
      | h :: t => (x :: h) :: t

/-- Python `line.split(':', 1)` combined with the `':' in line` test:
`none` when the line has no colon, otherwise the pair
(text before the first colon, text after it). -/
def splitFirstColon : List Char → Option (List Char × List Char)
  | [] => none
  | x :: xs =>
    if x = ':' then some ([], xs)
    else
      match splitFirstColon xs with
      | none => none
      | some (a, b) => some (x :: a, b)

/-- Python `s.strip()`: drop whitespace from both ends. -/
def stripChars (l : List Char) : List Char :=
  ((l.dropWhile Char.isWhitespace).reverse.dropWhile Char.isWhitespace).reverse

/-- Python `s.lower()` restricted to ASCII, as used on the rate-limit
category names `"AWS"`/`"AI"`. -/
def lowerStr (s : String) : String :=
  ⟨s.data.map Char.toLower⟩

/-- Python truthiness of an `Optional[str]`: `None` and `""` are falsy. -/
def optTruthy : Option String → Bool
  | none => false
  | some s => decide (s ≠ "")

/-! ## Python `dict` as an insertion-ordered association list -/

/-- Python `d[k] = v`: overwrite in place when the key is present
(keeping its position), otherwise append at the end. -/
def dictInsert : List (String × String) → String → String → List (String × String)
  | [], k, v => [(k, v)]
  | (k', v') :: rest, k, v =>
    if k' = k then (k', v) :: rest
    else (k', v') :: dictInsert rest k v

/-- Python `d.get(k)` / `d[k]`: value of the first (unique) entry with
the given key. -/
def lookupA (k : String) : List (String × String) → Option String
  | [] => none
  | (k', v) :: rest => if k' = k then some v else lookupA k rest

/-! ## Attribute parsing (`llm_interface.get_thread_attributes`, lines 114-120)

    attributes = {}
    for line in content.split('\n'):
        if ':' in line:
            key, value = line.split(':', 1)
            attributes[key.strip()] = value.strip()
-/

def parseAttributes (content : String) : List (String × String) :=
  (splitOnChar '\n' content.data).foldl
    (fun attrs line =>
      match splitFirstColon line with
      | none => attrs
      | some (k, v) => dictInsert attrs ⟨stripChars k⟩ ⟨stripChars v⟩) []

/-- Spec-mirror of the parser, following the spec's words: keep only the
lines containing a colon, split each at the first colon, trim both halves.
Written to be compared with `parseAttributes` (which follows the source). -/
def parseAttributesSpec (content : String) : List (String × String) :=
  ((splitOnChar '\n' content.data).filter (fun l => l.any (fun c => c = ':'))).foldl
    (fun attrs line =>
      match splitFirstColon line with
      | none => attrs
      | some (k, v) => dictInsert attrs ⟨stripChars k⟩ ⟨stripChars v⟩) []

/-- The key/value pairs of the colon-containing lines of `content`, in
line order, both components trimmed; used to state what the parser's
result map binds. -/
def colonPairs (content : String) : List (String × String) :=
  ((splitOnChar '\n' content.data).filterMap splitFirstColon).map
    (fun p => (⟨stripChars p.1⟩, ⟨stripChars p.2⟩))

/-! ## Data model -/

/-- An email record as projected by `db.get_email_chain`: every field
defaulted to `""` when missing, so fields are total strings. -/
structure EmailRecord where
  subject : String
  body : String
  sender : String
  timestamp : String
  type : String
deriving DecidableEq

/-- Transcript formatter (`utils.format_conversation_for_llm`, duplicated
verbatim in `thread_logic.py`):

    formatted_text = ""
    for email in email_chain:
        formatted_text += f"Subject: {email.get('subject', '')}\n"
        formatted_text += f"Body: {email.get('body', '')}\n\n"
    return formatted_text
-/
def format_conversation_for_llm (email_chain : List EmailRecord) : String :=
  email_chain.foldl
    (fun acc email =>
      acc ++ "Subject: " ++ email.subject ++ "\n" ++ "Body: " ++ email.body ++ "\n\n") ""

/-- Spec-mirror of the formatter: the concatenation, in chain order, of
the block `"Subject: {subject}\nBody: {body}\n\n"` for each record. -/
def formatSpec : List EmailRecord → String
  | [] => ""
  | e :: rest => "Subject: " ++ e.subject ++ "\n" ++ "Body: " ++ e.body ++ "\n\n" ++ formatSpec rest

/-! ## Model client (`llm_interface.get_thread_attributes`)

The HTTP exchange is modelled by its outcome: the response status and the
decoded JSON body. Per the external interface (spec section 6) the body,
when it has a `"choices"` field, carries the first choice's message
content; `usage.prompt_tokens` / `usage.completion_tokens` are already
defaulted to 0 when absent, hence total naturals.
-/

structure ModelResponse where
  status : Nat
  /-- `none` when the decoded body has no `"choices"` field, otherwise
  the first choice's message content. -/
  choices : Option String
  promptTokens : Nat
  completionTokens : Nat
deriving DecidableEq

/-- The configured model name (`config.TOGETHER_AI['MODEL']`). -/
def MODEL_NAME : String := "meta-llama/Llama-3.3-70B-Instruct-Turbo-Free"

/-- The argument record of a `db.store_llm_invocation` call made by the
model client (the stored item additionally gets a fresh UUID, a wall-clock
timestamp and the derived `total_tokens` sum). -/
structure InvocationWrite where
  associated_account : String
  input_tokens : Nat
  output_tokens : Nat
  llm_email_type : String
  model_name : String
  conversation_id : Option String
deriving DecidableEq

/-- `llm_interface.get_thread_attributes`: returns the parsed attribute
map, or the raised exception message; the second component lists the
`store_llm_invocation` calls it performed. Raises when the status is not
200 or the body lacks `"choices"`; stores an invocation record only when
`account_id` is truthy; the store's own success/failure does not affect
the result. -/
def get_thread_attributes (resp : ModelResponse)
    (account_id conversation_id : Option String) :
    Except String (List (String × String)) × List InvocationWrite :=
  if resp.status ≠ 200 then
    (.error "Failed to fetch response from Together AI API", [])
  else
    match resp.choices with
    | none => (.error "Invalid response from Together AI API", [])
    | some content =>
      let writes :=
        if optTruthy account_id then
          [{ associated_account := account_id.getD ""
             input_tokens := resp.promptTokens
             output_tokens := resp.completionTokens
             llm_email_type := "thread_attributes"
             model_name := MODEL_NAME
             conversation_id := conversation_id : InvocationWrite }]
        else []
      (.ok (parseAttributes content), writes)

/-! ## Rate limiter (`db.check_rate_limit` and friends) -/

/-- A Users-table item as read by `db.get_user_rate_limits`; either
rate-limit field may be absent (`item.get(..., 0)`). -/
structure UserItem where
  rl_aws : Option Nat
  rl_ai : Option Nat
deriving DecidableEq

/-- `db.get_user_rate_limits`: the Users-table lookup outcome is an input
(`.error` = the DynamoDB call raised, `.ok none` = no item). Both the
missing-record case and the exception case yield `{'rl_aws': 0, 'rl_ai': 0}`. -/
def get_user_rate_limits (usersTable : String → Except Unit (Option UserItem))
    (account_id : String) : Nat × Nat :=
  match usersTable account_id with
  | .error _ => (0, 0)
  | .ok none => (0, 0)
  | .ok (some item) => (item.rl_aws.getD 0, item.rl_ai.getD 0)

/-- `db.get_and_increment_rate_limit`: the atomic update's outcome is an
input; any underlying failure yields 0. -/
def get_and_increment_rate_limit (updateOutcome : Except Unit Nat) : Nat :=
  match updateOutcome with
  | .error _ => 0
  | .ok n => n

/-- The category names for which `rate_limits[f'rl_{limit_type.lower()}']`
succeeds; any other name raises `KeyError` inside `check_rate_limit`. -/
def validLimitType (limit_type : String) : Bool :=
  lowerStr limit_type = "aws" ∨ lowerStr limit_type = "ai"

/-- `db.check_rate_limit`: fetch the account's limits, select the one for
the category (KeyError for an unknown category is caught by the
function's own handler, giving `(False, 0, 0)`), increment-and-fetch the
counter, and compare with strict greater-than. -/
def check_rate_limit (usersTable : String → Except Unit (Option UserItem))
    (updateOutcome : Except Unit Nat) (account_id limit_type : String) :
    Bool × Nat × Nat :=
  let rate_limits := get_user_rate_limits usersTable account_id
  if validLimitType limit_type then
    let limit := if lowerStr limit_type = "aws" then rate_limits.1 else rate_limits.2
    let current_count := get_and_increment_rate_limit updateOutcome
    (decide (current_count > limit), current_count, limit)
  else
    (false, 0, 0)

/-- One step of the per-account counter held in the `RL_*` table: the
DynamoDB atomic increment-and-read. Takes the stored `invocations` value,
returns (new stored value, value returned to the caller). -/
def counterStep (invocations : Nat) : Nat × Nat :=
  (invocations + 1, invocations + 1)

/-- Stored counter value after `k` successful calls in one TTL window
(the record starts absent, read as 0). -/
def windowCount : Nat → Nat
  | 0 => 0
  | k + 1 => (counterStep (windowCount k)).1

/-- The value `incrementAndFetchCounter` returns on the `k`-th call
(1-indexed) of a fresh TTL window. -/
def counterReturnOnCall (k : Nat) : Nat :=
  (counterStep (windowCount (k - 1))).2

/-- `check_rate_limit` as observed on the `k`-th call of a fresh window,
with all DynamoDB operations succeeding. -/
def check_rate_limit_nthCall (usersTable : String → Except Unit (Option UserItem))
    (account_id limit_type : String) (k : Nat) : Bool × Nat × Nat :=
  check_rate_limit usersTable (.ok (counterReturnOnCall k)) account_id limit_type

/-! ## Orchestrators -/

/-- Modelled from the spec: `utils.LambdaError` is imported by
`thread_logic.py` but absent from the sources; per the spec every raised
condition carries an HTTP-style status code and a human-readable message. -/
structure LambdaError where
  code : Nat
  message : String
deriving DecidableEq

/-- Observable external actions of an orchestrated call, in order. -/
inductive TraceEvent where
  /-- Modelled from the spec: `utils.invoke_lambda` is absent from the
  sources; per the spec it runs the rate-limit check for one category by
  invoking the named lambda. -/
  | rateLimitInvoke (functionName : String) (clientId : String)
  | chainFetch (conversationId : String)
  | modelCall (conversationText : String)
  | invocationWrite (w : InvocationWrite)
deriving DecidableEq

def TraceEvent.isModelCall : TraceEvent → Bool
  | .modelCall _ => true
  | _ => false

def TraceEvent.isRateLimitInvoke : TraceEvent → Bool
  | .rateLimitInvoke _ _ => true
  | _ => false

def TraceEvent.isInvocationWrite : TraceEvent → Bool
  | .invocationWrite _ => true
  | _ => false

/-- The external world an orchestrated call runs against: the
Threads-table account lookup (`db.get_thread_account_id`, `none` on a
missing thread, missing field, or swallowed store error), the
Conversations query (`db.get_email_chain`, `[]` on no records or
swallowed store error), and the model endpoint's response. -/
structure ThreadEnv where
  accountOf : String → Option String
  chainOf : String → List EmailRecord
  llmResponse : ModelResponse

/-- `thread_logic.get_attributes_for_thread`: resolve the account (404 if
falsy), invoke the two rate-limit lambdas, fetch the chain (404 if
empty), format, call the model client; a model-layer exception becomes a
500 `LambdaError` (the 422 branch only fires for `ValueError`, which the
model client's two failure modes never raise). -/
def get_attributes_for_thread (env : ThreadEnv) (conversation_id : String) :
    Except LambdaError (List (String × String) × String × Nat) × List TraceEvent :=
  match env.accountOf conversation_id with
  | none => (.error ⟨404, "Account not found for this conversation."⟩, [])
  | some account_id =>
    if account_id = "" then
      (.error ⟨404, "Account not found for this conversation."⟩, [])
    else
      let ev0 := [TraceEvent.rateLimitInvoke "RateLimitAWS" account_id,
                  TraceEvent.rateLimitInvoke "RateLimitAI" account_id]
      let email_chain := env.chainOf conversation_id
      let ev1 := ev0 ++ [TraceEvent.chainFetch conversation_id]
      if email_chain.isEmpty then
        (.error ⟨404, "No conversation found with the given ID."⟩, ev1)
      else
        let conversation_text := format_conversation_for_llm email_chain
        let r := get_thread_attributes env.llmResponse (some account_id) (some conversation_id)
        let ev2 := ev1 ++ [TraceEvent.modelCall conversation_text] ++
          r.2.map TraceEvent.invocationWrite
        match r.1 with
        | .ok attributes => (.ok (attributes, account_id, email_chain.length), ev2)
        | .error _ => (.error ⟨500, "Failed to get thread attributes from LLM."⟩, ev2)

/-- Parse outcome of `json.loads(event['body'])` followed by
`body.get('conversationId')`. -/
inductive BodyParse where
  | malformed
  | json (conversationId : Option String)
deriving DecidableEq

/-- The Lambda event as far as `lambda_handler` inspects it: `none`
models a falsy `event.get('body')`. -/
structure LambdaEvent where
  body : Option BodyParse
deriving DecidableEq

/-- The response envelope built by `create_error_response` /
`create_success_response` (headers and the serialized processing time
elided; the success constructor carries the payload fields). -/
inductive HandlerResponse where
  | errorResp (statusCode : Nat) (error : String) (errorType : String)
  | success (attributes : List (String × String)) (conversationId : String)
      (accountId : Option String) (emailCount : Nat)
deriving DecidableEq

/-- `statusCode` of the envelope; `create_success_response` always sets 200. -/
def HandlerResponse.statusCode : HandlerResponse → Nat
  | .errorResp s _ _ => s
  | .success _ _ _ _ => 200

/-- `lambda_function.lambda_handler`: validate the request body, resolve
the account (without aborting when it is missing), fetch the chain (404
if empty), format, call the model client; a model-layer exception reaches
the outer handler and becomes a 500. Note: no rate-limit operation occurs
anywhere on this path. -/
def lambda_handler (env : ThreadEnv) (event : LambdaEvent) :
    HandlerResponse × List TraceEvent :=
  match event.body with
  | none => (.errorResp 400 "Missing request body" "MissingRequestBody", [])
  | some .malformed => (.errorResp 400 "Invalid JSON in request body" "InvalidJSON", [])
  | some (.json cidOpt) =>
    if optTruthy cidOpt = false then
      (.errorResp 400 "Missing conversationId in request body" "MissingConversationId", [])
    else
      let conversation_id := cidOpt.getD ""
      let account_id := env.accountOf conversation_id
      let email_chain := env.chainOf conversation_id
      let ev1 := [TraceEvent.chainFetch conversation_id]
      if email_chain.isEmpty then
        (.errorResp 404 "No conversation found with the given ID" "ConversationNotFound", ev1)
      else
        let conversation_text := format_conversation_for_llm email_chain
        let r := get_thread_attributes env.llmResponse account_id (some conversation_id)
        let ev2 := ev1 ++ [TraceEvent.modelCall conversation_text] ++
          r.2.map TraceEvent.invocationWrite
        match r.1 with
        | .ok attributes =>
          (.success attributes conversation_id account_id email_chain.length, ev2)
        | .error e =>
          (.errorResp 500 ("Internal server error: " ++ e) "InternalServerError", ev2)

/-! ## Basic facts used across claims -/

theorem windowCount_eq (k : Nat) : windowCount k = k := by
  induction k with
  | zero => rfl
  | succ n ih => simp [windowCount, counterStep, ih]

theorem counterReturnOnCall_eq (k : Nat) (hk : 1 ≤ k) : counterReturnOnCall k = k := by
  simp [counterReturnOnCall, counterStep, windowCount_eq]
  omega

def exceptIsError {ε α : Type} : Except ε α → Bool
  | .error _ => true
  | .ok _ => false

/-- The limit `check_rate_limit` selects for a category, with the
record-missing default of 0 (`rate_limits[f'rl_{limit_type.lower()}']`
applied to `get_user_rate_limits`'s result). -/
def limitFor (usersTable : String → Except Unit (Option UserItem))
    (account_id limit_type : String) : Nat :=
  if lowerStr limit_type = "aws" then (get_user_rate_limits usersTable account_id).1
  else (get_user_rate_limits usersTable account_id).2

/-- C1: an InvocationRecord write is attempted by `get_thread_attributes`
exactly when the HTTP status was 200, the decoded body contained
`"choices"`, and a non-empty account id was supplied; and every such
write fixes `llm_email_type` to `"thread_attributes"`. -/
theorem invocation_record_write_iff (resp : ModelResponse) (aid cid : Option String) :
    (((get_thread_attributes resp aid cid).2 ≠ []) ↔
      (resp.status = 200 ∧ resp.choices.isSome = true ∧ optTruthy aid = true))
    ∧ (get_thread_attributes resp aid cid).2.all
        (fun w => w.llm_email_type == "thread_attributes") = true := by
  rcases resp with ⟨st, ch, pt, ct⟩
  by_cases hst : st = 200
  · subst hst
    cases ch with
    | none => simp [get_thread_attributes]
    | some content =>
      cases ha : optTruthy aid with
      | false => simp [get_thread_attributes, ha]
      | true => simp [get_thread_attributes, ha]
  · simp [get_thread_attributes, hst]

/-- C7: `get_thread_attributes` raises exactly when the response status
is not 200 or the decoded body lacks a `"choices"` field; the error
propagates (is returned as `.error`) rather than being retried, the
embedding consuming the single response of the one request sent. -/
theorem model_error_iff (resp : ModelResponse) (aid cid : Option String) :
    exceptIsError (get_thread_attributes resp aid cid).1 = true ↔
      (resp.status ≠ 200 ∨ resp.choices = none) := by
  rcases resp with ⟨st, ch, pt, ct⟩
  by_cases hst : st = 200
  · subst hst
    cases ch with
    | none => simp [get_thread_attributes, exceptIsError]
    | some content =>
      cases ha : optTruthy aid with
      | false => simp [get_thread_attributes, ha, exceptIsError]
      | true => simp [get_thread_attributes, ha, exceptIsError]
  · simp [get_thread_attributes, hst, exceptIsError]

/-- C2: when the Threads lookup yields no account, the orchestrator
fails with the 404 account-not-found `LambdaError` and performs no
external action at all — in particular no model call. -/
theorem account_missing_404_no_model_call (env : ThreadEnv) (cid : String)
    (h : env.accountOf cid = none) :
    get_attributes_for_thread env cid =
      (.error ⟨404, "Account not found for this conversation."⟩, [])
    ∧ ((get_attributes_for_thread env cid).2.any TraceEvent.isModelCall) = false := by
  have h1 : get_attributes_for_thread env cid =
      (.error ⟨404, "Account not found for this conversation."⟩, []) := by
    simp [get_attributes_for_thread, h]
  exact ⟨h1, by rw [h1]; rfl⟩

theorem account_missing_404_no_model_call_witness :
    get_attributes_for_thread
        ⟨fun _ => none, fun _ => [], ⟨200, some "", 0, 0⟩⟩ "conv-1" =
      (.error ⟨404, "Account not found for this conversation."⟩, [])
    ∧ ((get_attributes_for_thread
        ⟨fun _ => none, fun _ => [], ⟨200, some "", 0, 0⟩⟩ "conv-1").2.any
          TraceEvent.isModelCall) = false :=
  account_missing_404_no_model_call ⟨fun _ => none, fun _ => [], ⟨200, some "", 0, 0⟩⟩ "conv-1" rfl

/-- C3: `check_rate_limit` returns `exceeded = (currentCount > limit)`
with strict comparison (so within one window at a configured limit of N
the Nth call is allowed and the (N+1)th trips it), the limit defaults to
0 when the account's user record is missing, and an internal failure of
the check (an unknown category name, the one reachable exception) makes
it return `(false, 0, 0)`. -/
theorem check_rate_limit_spec (usersTable : String → Except Unit (Option UserItem))
    (uo : Except Unit Nat) (aid lt : String) :
    (validLimitType lt = true →
      check_rate_limit usersTable uo aid lt =
        (decide (get_and_increment_rate_limit uo > limitFor usersTable aid lt),
         get_and_increment_rate_limit uo, limitFor usersTable aid lt))
    ∧ (usersTable aid = .ok none → get_user_rate_limits usersTable aid = (0, 0))
    ∧ (validLimitType lt = false → check_rate_limit usersTable uo aid lt = (false, 0, 0))
    ∧ (∀ N, validLimitType lt = true → limitFor usersTable aid lt = N → 1 ≤ N →
        (check_rate_limit_nthCall usersTable aid lt N).1 = false
        ∧ (check_rate_limit_nthCall usersTable aid lt (N + 1)).1 = true) := by
  refine ⟨fun hv => ?_, fun hm => ?_, fun hv => ?_, fun N hv hl hN => ?_⟩
  · simp [check_rate_limit, hv, limitFor]
  · simp [get_user_rate_limits, hm]
  · simp [check_rate_limit, hv]
  · constructor
    · simp [check_rate_limit_nthCall, check_rate_limit, hv, limitFor] at hl ⊢
      simp [counterReturnOnCall_eq N hN, get_and_increment_rate_limit, hl]
    · simp [check_rate_limit_nthCall, check_rate_limit, hv, limitFor] at hl ⊢
      simp [counterReturnOnCall_eq (N + 1) (by omega), get_and_increment_rate_limit, hl]

theorem check_rate_limit_spec_witness :
    check_rate_limit (fun _ => .ok (some ⟨some 2, some 5⟩)) (.ok 1) "acct" "AWS" = (false, 1, 2)
    ∧ get_user_rate_limits (fun _ => Except.ok (none : Option UserItem)) "acct" = (0, 0)
    ∧ check_rate_limit (fun _ => .ok (some ⟨some 2, some 5⟩)) (.ok 7) "acct" "BOGUS" = (false, 0, 0)
    ∧ (check_rate_limit_nthCall (fun _ => .ok (some ⟨some 2, some 5⟩)) "acct" "AWS" 2).1 = false
    ∧ (check_rate_limit_nthCall (fun _ => .ok (some ⟨some 2, some 5⟩)) "acct" "AWS" 3).1 = true := by
  refine ⟨?_, ?_, ?_, ?_, ?_⟩
  · have h := (check_rate_limit_spec (fun _ => .ok (some ⟨some 2, some 5⟩)) (.ok 1) "acct" "AWS").1
      (by decide)
    rw [h]; decide
  · exact (check_rate_limit_spec (fun _ => Except.ok (none : Option UserItem)) (.ok 1) "acct" "AWS").2.1 rfl
  · exact (check_rate_limit_spec (fun _ => .ok (some ⟨some 2, some 5⟩)) (.ok 7) "acct" "BOGUS").2.2.1
      (by decide)
  · exact ((check_rate_limit_spec (fun _ => .ok (some ⟨some 2, some 5⟩)) (.ok 0) "acct" "AWS").2.2.2
      2 (by decide) (by decide) (by decide)).1
  · exact ((check_rate_limit_spec (fun _ => .ok (some ⟨some 2, some 5⟩)) (.ok 0) "acct" "AWS").2.2.2
      2 (by decide) (by decide) (by decide)).2

/-- C8 counterexample: a complete request through the deployed
entry-point orchestrator `lambda_handler` reaches the model call while
performing no rate-limit check-and-increment for any category, so not
every orchestrated thread-attribute call runs the two checks. -/
theorem rate_limit_skipped_in_handler_cex :
    ((lambda_handler
        ⟨fun _ => some "acct-1", fun _ => [⟨"Hi", "Hello", "", "", ""⟩],
         ⟨200, some "topic: x", 1, 2⟩⟩
        ⟨some (.json (some "conv-1"))⟩).2.any TraceEvent.isModelCall = true)
    ∧ ((lambda_handler
        ⟨fun _ => some "acct-1", fun _ => [⟨"Hi", "Hello", "", "", ""⟩],
         ⟨200, some "topic: x", 1, 2⟩⟩
        ⟨some (.json (some "conv-1"))⟩).2.any TraceEvent.isRateLimitInvoke = false) := by
  constructor <;> rfl

/-- C8 amended: in the `thread_logic` orchestrator
`get_attributes_for_thread`, the rate-limit check-and-increment is
invoked for both fixed categories as the first two external actions of
every call that resolves an account — hence before the chain fetch and
before any model call, regardless of the checks' outcome. -/
theorem rate_limit_first_in_thread_logic (env : ThreadEnv) (cid aid : String)
    (hacct : env.accountOf cid = some aid) (haid : aid ≠ "") :
    ((get_attributes_for_thread env cid).2.take 2) =
      [TraceEvent.rateLimitInvoke "RateLimitAWS" aid,
       TraceEvent.rateLimitInvoke "RateLimitAI" aid] := by
  unfold get_attributes_for_thread
  simp only [hacct]
  rw [if_neg haid]
  cases hc : (env.chainOf cid).isEmpty
  · simp only [hc, Bool.false_eq_true, if_false]
    cases hr : (get_thread_attributes env.llmResponse (some aid) (some cid)).1 <;> simp
  · simp only [hc, if_true]
    rfl

theorem rate_limit_first_in_thread_logic_witness :
    ((get_attributes_for_thread
        ⟨fun _ => some "acct-1", fun _ => [], ⟨200, some "", 0, 0⟩⟩ "conv-1").2.take 2) =
      [TraceEvent.rateLimitInvoke "RateLimitAWS" "acct-1",
       TraceEvent.rateLimitInvoke "RateLimitAI" "acct-1"] :=
  rate_limit_first_in_thread_logic
    ⟨fun _ => some "acct-1", fun _ => [], ⟨200, some "", 0, 0⟩⟩ "conv-1" "acct-1" rfl
    (by decide)

/-- C9: when the Threads lookup yields no account but the chain is
non-empty and the model call succeeds, `lambda_handler` still calls the
model and returns a 200 success envelope with `accountId` null, and no
invocation record is stored. -/
theorem handler_null_account_success (env : ThreadEnv) (cid content : String)
    (hcid : cid ≠ "") (hacct : env.accountOf cid = none)
    (hchain : env.chainOf cid ≠ [])
    (hst : env.llmResponse.status = 200)
    (hch : env.llmResponse.choices = some content) :
    (lambda_handler env ⟨some (.json (some cid))⟩).1 =
      .success (parseAttributes content) cid none (env.chainOf cid).length
    ∧ ((lambda_handler env ⟨some (.json (some cid))⟩).1.statusCode = 200)
    ∧ ((lambda_handler env ⟨some (.json (some cid))⟩).2.any TraceEvent.isModelCall = true)
    ∧ ((lambda_handler env ⟨some (.json (some cid))⟩).2.any TraceEvent.isInvocationWrite = false) := by
  have hout : lambda_handler env ⟨some (.json (some cid))⟩ =
      (.success (parseAttributes content) cid none (env.chainOf cid).length,
       [TraceEvent.chainFetch cid,
        TraceEvent.modelCall (format_conversation_for_llm (env.chainOf cid))]) := by
    cases hl : env.chainOf cid with
    | nil => exact absurd hl hchain
    | cons e es =>
      simp [lambda_handler, optTruthy, hcid, hacct, hl, get_thread_attributes, hst, hch]
  rw [hout]
  exact ⟨rfl, rfl, rfl, rfl⟩

theorem handler_null_account_success_witness :
    (lambda_handler
        ⟨fun _ => none, fun _ => [⟨"Hi", "Hello", "", "", ""⟩], ⟨200, some "a: b", 3, 4⟩⟩
        ⟨some (.json (some "conv-9"))⟩).1 =
      .success (parseAttributes "a: b") "conv-9" none 1
    ∧ ((lambda_handler
        ⟨fun _ => none, fun _ => [⟨"Hi", "Hello", "", "", ""⟩], ⟨200, some "a: b", 3, 4⟩⟩
        ⟨some (.json (some "conv-9"))⟩).1.statusCode = 200)
    ∧ ((lambda_handler
        ⟨fun _ => none, fun _ => [⟨"Hi", "Hello", "", "", ""⟩], ⟨200, some "a: b", 3, 4⟩⟩
        ⟨some (.json (some "conv-9"))⟩).2.any TraceEvent.isModelCall = true)
    ∧ ((lambda_handler
        ⟨fun _ => none, fun _ => [⟨"Hi", "Hello", "", "", ""⟩], ⟨200, some "a: b", 3, 4⟩⟩
        ⟨some (.json (some "conv-9"))⟩).2.any TraceEvent.isInvocationWrite = false) :=
  handler_null_account_success
    ⟨fun _ => none, fun _ => [⟨"Hi", "Hello", "", "", ""⟩], ⟨200, some "a: b", 3, 4⟩⟩
    "conv-9" "a: b" (by decide) rfl (by decide) rfl rfl

/-! ## Formatter: C5 -/

theorem format_fold_eq (chain : List EmailRecord) : ∀ acc : String,
    chain.foldl
      (fun acc email =>
        acc ++ "Subject: " ++ email.subject ++ "\n" ++ "Body: " ++ email.body ++ "\n\n") acc
      = acc ++ formatSpec chain := by
  induction chain with
  | nil => intro acc; simp [formatSpec, String.append_empty]
  | cons e rest ih =>
    intro acc
    rw [List.foldl_cons, ih, formatSpec]
    simp [String.append_assoc]

/-- C5: the formatter returns the concatenation, in chain order, of
`"Subject: {subject}\nBody: {body}\n\n"` per record (stated against the
spec-mirror `formatSpec`), and the empty chain yields the empty string;
as a Lean function it is pure and deterministic. -/
theorem format_conversation_concatenation :
    (∀ chain, format_conversation_for_llm chain = formatSpec chain)
    ∧ format_conversation_for_llm [] = "" := by
  constructor
  · intro chain
    have h := format_fold_eq chain ""
    rw [format_conversation_for_llm, h, String.empty_append]
  · rfl

/-! ## Parser: C4 -/

theorem foldl_eq_foldl_filter {α β : Type} (p : β → Bool) (f : α → β → α)
    (hf : ∀ a b, p b = false → f a b = a) :
    ∀ (l : List β) (init : α), l.foldl f init = (l.filter p).foldl f init := by
  intro l
  induction l with
  | nil => intro init; rfl
  | cons b bs ih =>
    intro init
    cases hp : p b
    · simp only [List.foldl_cons, List.filter_cons, hp, Bool.false_eq_true, if_false,
        hf init b hp, ih]
    · simp only [List.foldl_cons, List.filter_cons, hp, if_true, ih]

theorem splitFirstColon_eq_none_iff (l : List Char) :
    splitFirstColon l = none ↔ l.any (fun c => c = ':') = false := by
  induction l with
  | nil => simp [splitFirstColon]
  | cons x xs ih =>
    by_cases hx : x = ':'
    · simp [splitFirstColon, hx]
    · rw [List.any_cons]
      simp only [splitFirstColon, hx, if_false, decide_eq_true_eq]
      cases h : splitFirstColon xs with
      | none => simp [h, hx, ih.1 h]
      | some p =>
        obtain ⟨a, b⟩ := p
        simp only [h]
        constructor
        · intro hc; exact absurd hc (by simp)
        · intro hc
          rw [Bool.or_eq_false_iff] at hc
          have := ih.2 hc.2
          rw [this] at h
          exact absurd h (by simp)

/-- C4: the parser processes the reply line-by-line, splitting each
colon-containing line at the first colon into a trimmed key and value and
skipping lines without a colon (it agrees everywhere with the spec-mirror
`parseAttributesSpec`); the claim's two concrete inputs evaluate to
exactly the claimed maps. -/
theorem parse_attributes_first_colon_spec :
    (∀ content, parseAttributes content = parseAttributesSpec content)
    ∧ parseAttributes "sentiment: positive\nurgency: high\nnot-a-line\ntopic: pricing" =
        [("sentiment", "positive"), ("urgency", "high"), ("topic", "pricing")]
    ∧ parseAttributes "topic: pricing: follow-up" = [("topic", "pricing: follow-up")] := by
  refine ⟨fun content => ?_, by decide, by decide⟩
  unfold parseAttributes parseAttributesSpec
  exact foldl_eq_foldl_filter _ _
    (fun m l hl => by rw [(splitFirstColon_eq_none_iff l).2 hl])
    (splitOnChar '\n' content.data) []

/-! ## Dictionary lemmas: C10 -/

/-- First-some choice, as Python dict lookup layering needs it. -/
def optOr (a b : Option String) : Option String :=
  match a with
  | some x => some x
  | none => b

theorem optOr_none_right (a : Option String) : optOr a none = a := by
  cases a <;> rfl

theorem optOr_assoc (a b c : Option String) :
    optOr (optOr a b) c = optOr a (optOr b c) := by
  cases a <;> rfl

theorem lookupA_append (k : String) (l1 l2 : List (String × String)) :
    lookupA k (l1 ++ l2) = optOr (lookupA k l1) (lookupA k l2) := by
  induction l1 with
  | nil => rfl
  | cons p rest ih =>
    obtain ⟨a, b⟩ := p
    by_cases h : a = k
    · simp [lookupA, h, optOr]
    · simp [lookupA, h, ih]

theorem lookupA_dictInsert (m : List (String × String)) (k v k' : String) :
    lookupA k' (dictInsert m k v) = if k' = k then some v else lookupA k' m := by
  induction m with
  | nil =>
    by_cases h : k' = k
    · simp [dictInsert, lookupA, h]
    · simp [dictInsert, lookupA, h, Ne.symm h]
  | cons p rest ih =>
    obtain ⟨a, b⟩ := p
    by_cases hak : a = k
    · subst hak
      by_cases hk : k' = a
      · subst hk
        simp [dictInsert, lookupA]
      · simp [dictInsert, lookupA, hk, Ne.symm hk]
    · by_cases hk : a = k'
      · subst hk
        simp [dictInsert, lookupA, hak, Ne.symm hak]
      · simp [dictInsert, lookupA, hak, hk, ih]

theorem mem_keys_dictInsert (m : List (String × String)) (k v a : String) :
    a ∈ (dictInsert m k v).map Prod.fst ↔ a = k ∨ a ∈ m.map Prod.fst := by
  induction m with
  | nil => simp [dictInsert]
  | cons p rest ih =>
    obtain ⟨x, y⟩ := p
    by_cases hx : x = k
    · subst hx
      simp [dictInsert]
    · simp [dictInsert, hx, ih]
      tauto

theorem nodup_keys_dictInsert (m : List (String × String)) (k v : String)
    (h : (m.map Prod.fst).Nodup) : ((dictInsert m k v).map Prod.fst).Nodup := by
  induction m with
  | nil => simp [dictInsert]
  | cons p rest ih =>
    obtain ⟨x, y⟩ := p
    simp only [List.map_cons, List.nodup_cons] at h
    by_cases hx : x = k
    · subst hx
      simpa [dictInsert] using h
    · simp only [dictInsert, hx, if_false, List.map_cons, List.nodup_cons]
      refine ⟨fun hmem => ?_, ih h.2⟩
      rw [mem_keys_dictInsert] at hmem
      rcases hmem with rfl | hmem
      · exact hx rfl
      · exact h.1 hmem

theorem keys_toFinset_dictInsert (m : List (String × String)) (k v : String) :
    ((dictInsert m k v).map Prod.fst).toFinset = insert k (m.map Prod.fst).toFinset := by
  apply Finset.ext
  intro a
  rw [List.mem_toFinset, Finset.mem_insert, List.mem_toFinset]
  exact mem_keys_dictInsert m k v a

theorem lookupA_foldl_dictInsert (k : String) (pairs : List (String × String)) :
    ∀ init, lookupA k (pairs.foldl (fun m p => dictInsert m p.1 p.2) init) =
      optOr (lookupA k pairs.reverse) (lookupA k init) := by
  induction pairs with
  | nil => intro init; rfl
  | cons p ps ih =>
    obtain ⟨a, b⟩ := p
    intro init
    rw [List.foldl_cons, ih, List.reverse_cons, lookupA_append, optOr_assoc]
    congr 1
    rw [lookupA_dictInsert]
    by_cases h : k = a
    · subst h
      simp [lookupA, optOr]
    · simp [lookupA, h, Ne.symm h, optOr]

theorem keys_toFinset_foldl_dictInsert (pairs : List (String × String)) :
    ∀ init, (((pairs.foldl (fun m p => dictInsert m p.1 p.2) init)).map Prod.fst).toFinset =
      (init.map Prod.fst).toFinset ∪ (pairs.map Prod.fst).toFinset := by
  induction pairs with
  | nil => intro init; simp
  | cons p ps ih =>
    intro init
    rw [List.foldl_cons, ih, keys_toFinset_dictInsert]
    simp [Finset.insert_union, Finset.union_insert]

theorem nodup_keys_foldl_dictInsert (pairs : List (String × String)) :
    ∀ init, (init.map Prod.fst).Nodup →
      ((pairs.foldl (fun m p => dictInsert m p.1 p.2) init).map Prod.fst).Nodup := by
  induction pairs with
  | nil => intro init h; exact h
  | cons p ps ih =>
    intro init h
    rw [List.foldl_cons]
    exact ih _ (nodup_keys_dictInsert init p.1 p.2 h)

theorem foldl_filterMap {α β γ : Type} (g : β → Option γ) (f : α → γ → α) :
    ∀ (l : List β) (init : α),
      (l.filterMap g).foldl f init =
        l.foldl (fun a b => match g b with | none => a | some c => f a c) init := by
  intro l
  induction l with
  | nil => intro init; rfl
  | cons b bs ih =>
    intro init
    cases hg : g b <;> simp [List.filterMap_cons, hg, ih]

theorem parse_eq_dictfold (content : String) :
    parseAttributes content = (colonPairs content).foldl (fun m p => dictInsert m p.1 p.2) [] := by
  unfold parseAttributes colonPairs
  rw [List.foldl_map, foldl_filterMap]
  congr 1
  funext a b
  cases splitFirstColon b with
  | none => rfl
  | some p => obtain ⟨x, y⟩ := p; rfl

/-- C10: the parsed attribute map binds each key to the trimmed value of
the LAST colon-containing line with that trimmed key (lookup agrees with
lookup in the reversed line-pair list), and its size is the number of
distinct trimmed keys among the colon-containing lines. -/
theorem parse_attributes_last_wins (content : String) (k : String) :
    lookupA k (parseAttributes content) = lookupA k (colonPairs content).reverse
    ∧ (parseAttributes content).length =
        ((colonPairs content).map Prod.fst).toFinset.card := by
  have hp := parse_eq_dictfold content
  constructor
  · rw [hp, lookupA_foldl_dictInsert]
    exact optOr_none_right _
  · rw [hp]
    have hnd := nodup_keys_foldl_dictInsert (colonPairs content) [] (by simp)
    have hlen := List.toFinset_card_of_nodup hnd
    rw [List.length_map] at hlen
    rw [← hlen, keys_toFinset_foldl_dictInsert]
    simp

/-! ## Substring-occurrence counting: C6

`countOccs pat s` counts the positions of `s` at which `pat` occurs
(matches as a prefix of the suffix starting there); for the two markers
`"Subject: "` and `"Body: "`, which cannot overlap themselves, this is
the number of occurrences of the substring.
-/

def countOccs (pat : List Char) : List Char → Nat
  | [] => 0
  | c :: rest => (if pat.isPrefixOf (c :: rest) then 1 else 0) + countOccs pat rest

/-- A pattern none of whose nonempty proper suffixes is one of its
prefixes, so an occurrence cannot begin inside another occurrence. -/
def noSelfOverlap (pat : List Char) : Prop :=
  ∀ j < pat.length, 0 < j → ¬ ((pat.drop j).isPrefixOf pat = true)

theorem countOccs_cons_ne {p c : Char} {pr r : List Char} (h : p ≠ c) :
    countOccs (p :: pr) (c :: r) = countOccs (p :: pr) r := by
  have hb : ((p :: pr).isPrefixOf (c :: r)) = false := by
    simp [List.isPrefixOf, h]
  conv_lhs => rw [countOccs]
  rw [hb]
  simp

theorem countOccs_walk {p : Char} {pr : List Char} (w z : List Char)
    (hw : ∀ c ∈ w, p ≠ c) :
    countOccs (p :: pr) (w ++ z) = countOccs (p :: pr) z := by
  induction w with
  | nil => rfl
  | cons c cs ih =>
    rw [List.cons_append, countOccs_cons_ne (hw c (List.mem_cons_self c cs)),
      ih (fun c hc => hw c (List.mem_cons_of_mem _ hc))]

theorem isPrefixOf_append_nl (xs : List Char) :
    ∀ pat : List Char, pat ≠ [] → '\n' ∉ pat →
      ∀ ys, pat.isPrefixOf (xs ++ '\n' :: ys) = pat.isPrefixOf xs := by
  induction xs with
  | nil =>
    intro pat hne hnl ys
    match pat, hne with
    | p :: pr, _ =>
      have hp : p ≠ '\n' := fun h => hnl (h ▸ List.mem_cons_self p pr)
      simp [List.isPrefixOf, hp]
  | cons x xr ih =>
    intro pat hne hnl ys
    match pat, hne with
    | p :: pr, _ =>
      cases pr with
      | nil => simp [List.isPrefixOf]
      | cons q qr =>
        have hq : '\n' ∉ q :: qr := fun h => hnl (List.mem_cons_of_mem p h)
        simp only [List.cons_append, List.isPrefixOf, List.append_eq]
        rw [ih (q :: qr) (by simp) hq ys]

theorem countOccs_append_nl {pat : List Char} (hne : pat ≠ []) (hnl : '\n' ∉ pat)
    (xs ys : List Char) :
    countOccs pat (xs ++ '\n' :: ys) = countOccs pat xs + countOccs pat ('\n' :: ys) := by
  induction xs with
  | nil => simp [countOccs]
  | cons x xr ih =>
    have hpre := isPrefixOf_append_nl (x :: xr) pat hne hnl ys
    simp only [List.cons_append] at hpre ⊢
    simp only [countOccs, hpre, ih]
    cases hb : pat.isPrefixOf (x :: xr)
    · simp [hb]
    · simp [hb]
      omega

theorem countOccs_drop_aux {pat : List Char} (hov : noSelfOverlap pat) :
    ∀ d k t, k + d = pat.length → 0 < k →
      countOccs pat (pat.drop k ++ t) = countOccs pat t := by
  intro d
  induction d with
  | zero =>
    intro k t hk _
    have hkl : k = pat.length := by omega
    rw [hkl, List.drop_length, List.nil_append]
  | succ d ih =>
    intro k t hk hk0
    have hklt : k < pat.length := by omega
    have hdrop : pat.drop k = pat[k] :: pat.drop (k + 1) := List.drop_eq_getElem_cons hklt
    rw [hdrop, List.cons_append]
    cases hb : pat.isPrefixOf (pat[k] :: (pat.drop (k + 1) ++ t)) with
    | false =>
      simp only [countOccs, hb]
      simpa using ih (k + 1) t (by omega) (by omega)
    | true =>
      exfalso
      have hb' : pat.isPrefixOf (pat.drop k ++ t) = true := by
        rw [hdrop, List.cons_append]; exact hb
      have hpre : pat <+: pat.drop k ++ t := by
        rw [← List.isPrefixOf_iff_prefix]
        exact hb'
      have h1 : pat.drop k <+: pat.drop k ++ t := List.prefix_append _ _
      have h2 : pat.drop k <+: pat :=
        List.prefix_of_prefix_length_le h1 hpre (by rw [List.length_drop]; omega)
      apply hov k hklt hk0
      rw [ List.isPrefixOf_iff_prefix]
      exact h2

theorem countOccs_self_append {pat : List Char} (hne : pat ≠ []) (hov : noSelfOverlap pat)
    (t : List Char) : countOccs pat (pat ++ t) = 1 + countOccs pat t := by
  match pat, hne with
  | p :: pr, _ =>
    have hlen : (p :: pr).length = pr.length + 1 := rfl
    have h2 : countOccs (p :: pr) (pr ++ t) = countOccs (p :: pr) t := by
      have hd := countOccs_drop_aux hov ((p :: pr).length - 1) 1 t (by omega) (by omega)
      simp only [List.drop_succ_cons, List.drop_zero] at hd
      exact hd
    have h1 : (p :: pr).isPrefixOf (p :: (pr ++ t)) = true := by
      have hpp : (p :: pr) <+: (p :: pr) ++ t := List.prefix_append _ _
      rw [← List.isPrefixOf_iff_prefix] at hpp
      rw [show (p :: pr) ++ t = p :: (pr ++ t) from rfl] at hpp
      exact hpp
    rw [show (p :: pr) ++ t = p :: (pr ++ t) from rfl]
    conv_lhs => rw [countOccs]
    rw [h1, h2]
    simp

/-! ## The two block markers -/

def subjPat : List Char := "Subject: ".data

def bodyPat : List Char := "Body: ".data

theorem subjPat_ne : subjPat ≠ [] := by decide

theorem subjPat_nl : '\n' ∉ subjPat := by decide

theorem subjPat_ov : noSelfOverlap subjPat := by
  unfold noSelfOverlap
  decide

theorem bodyPat_ne : bodyPat ≠ [] := by decide

theorem bodyPat_nl : '\n' ∉ bodyPat := by decide

theorem bodyPat_ov : noSelfOverlap bodyPat := by
  unfold noSelfOverlap
  decide

theorem countOccs_subj_skip_nl (z : List Char) :
    countOccs subjPat ('\n' :: z) = countOccs subjPat z := by
  have hs : subjPat = 'S' :: "ubject: ".data := rfl
  rw [hs]
  exact countOccs_cons_ne (by decide)

theorem countOccs_body_skip_nl (z : List Char) :
    countOccs bodyPat ('\n' :: z) = countOccs bodyPat z := by
  have hb : bodyPat = 'B' :: "ody: ".data := rfl
  rw [hb]
  exact countOccs_cons_ne (by decide)

theorem countOccs_subj_skip_bodyMarker (z : List Char) :
    countOccs subjPat ("Body: ".data ++ z) = countOccs subjPat z := by
  have hs : subjPat = 'S' :: "ubject: ".data := rfl
  rw [hs]
  exact countOccs_walk _ _ (by decide)

theorem countOccs_body_skip_subjMarker (z : List Char) :
    countOccs bodyPat ("Subject: ".data ++ z) = countOccs bodyPat z := by
  have hb : bodyPat = 'B' :: "ody: ".data := rfl
  rw [hb]
  exact countOccs_walk _ _ (by decide)

/-- The formatter's output as a character list: per-record blocks in
input order, each block closed by the blank-line separator. -/
def blocksData : List EmailRecord → List Char
  | [] => []
  | e :: rest =>
    "Subject: ".data ++ e.subject.data ++ '\n' ::
      ("Body: ".data ++ e.body.data ++ '\n' :: '\n' :: blocksData rest)

theorem format_eq_formatSpec (chain : List EmailRecord) :
    format_conversation_for_llm chain = formatSpec chain := by
  have h := format_fold_eq chain ""
  rw [format_conversation_for_llm, h, String.empty_append]

theorem format_data_eq_blocks (chain : List EmailRecord) :
    (format_conversation_for_llm chain).data = blocksData chain := by
  rw [format_eq_formatSpec]
  induction chain with
  | nil => rfl
  | cons e rest ih =>
    have h1 : "\n".data = ['\n'] := rfl
    have h2 : "\n\n".data = ['\n', '\n'] := rfl
    rw [formatSpec, blocksData]
    simp only [String.data_append, h1, h2, List.append_assoc, List.singleton_append,
      List.cons_append, List.nil_append, ih]

theorem countOccs_subjPat_blocks (chain : List EmailRecord)
    (h : ∀ e ∈ chain,
      countOccs subjPat e.subject.data = 0 ∧ countOccs subjPat e.body.data = 0) :
    countOccs subjPat (blocksData chain) = chain.length := by
  induction chain with
  | nil => rfl
  | cons e rest ih =>
    obtain ⟨hsub, hbody⟩ := h e (List.mem_cons_self e rest)
    have hrest := fun e' he' => h e' (List.mem_cons_of_mem _ he')
    rw [show blocksData (e :: rest) =
      subjPat ++ (e.subject.data ++ '\n' ::
        ("Body: ".data ++ (e.body.data ++ '\n' :: '\n' :: blocksData rest))) from rfl]
    rw [countOccs_self_append subjPat_ne subjPat_ov]
    rw [countOccs_append_nl subjPat_ne subjPat_nl]
    rw [hsub, countOccs_subj_skip_nl, countOccs_subj_skip_bodyMarker]
    rw [countOccs_append_nl subjPat_ne subjPat_nl]
    rw [hbody, countOccs_subj_skip_nl, countOccs_subj_skip_nl, ih hrest]
    rw [List.length_cons]
    omega

theorem countOccs_bodyPat_blocks (chain : List EmailRecord)
    (h : ∀ e ∈ chain,
      countOccs bodyPat e.subject.data = 0 ∧ countOccs bodyPat e.body.data = 0) :
    countOccs bodyPat (blocksData chain) = chain.length := by
  induction chain with
  | nil => rfl
  | cons e rest ih =>
    obtain ⟨hsub, hbody⟩ := h e (List.mem_cons_self e rest)
    have hrest := fun e' he' => h e' (List.mem_cons_of_mem _ he')
    rw [show blocksData (e :: rest) =
      "Subject: ".data ++ (e.subject.data ++ '\n' ::
        (bodyPat ++ (e.body.data ++ '\n' :: '\n' :: blocksData rest))) from rfl]
    rw [countOccs_body_skip_subjMarker]
    rw [countOccs_append_nl bodyPat_ne bodyPat_nl]
    rw [hsub, countOccs_body_skip_nl]
    rw [countOccs_self_append bodyPat_ne bodyPat_ov]
    rw [countOccs_append_nl bodyPat_ne bodyPat_nl]
    rw [hbody, countOccs_body_skip_nl, countOccs_body_skip_nl, ih hrest]
    rw [List.length_cons]
    omega

/-- C6 counterexample: for the one-record chain whose body itself
contains `"Subject: "`, the formatter's output contains 2 occurrences of
the substring `"Subject: "`, not N = 1, so the count property fails for
arbitrary records. -/
theorem subject_marker_count_cex :
    countOccs subjPat
        (format_conversation_for_llm [⟨"", "Subject: ", "", "", ""⟩]).data ≠
      ([⟨"", "Subject: ", "", "", ""⟩] : List EmailRecord).length := by
  decide

/-- C6 amended: for records none of whose subject or body fields contain
the marker substrings `"Subject: "` or `"Body: "`, the formatter's output
contains exactly N occurrences of each marker; the blocks appear in input
order, each closed by the blank-line separator (the `blocksData` shape of
the output). -/
theorem marker_counts_of_clean_fields (chain : List EmailRecord)
    (h : ∀ e ∈ chain,
      countOccs subjPat e.subject.data = 0 ∧ countOccs subjPat e.body.data = 0
      ∧ countOccs bodyPat e.subject.data = 0 ∧ countOccs bodyPat e.body.data = 0) :
    countOccs subjPat (format_conversation_for_llm chain).data = chain.length
    ∧ countOccs bodyPat (format_conversation_for_llm chain).data = chain.length
    ∧ (format_conversation_for_llm chain).data = blocksData chain := by
  rw [format_data_eq_blocks]
  exact ⟨countOccs_subjPat_blocks chain (fun e he => ⟨(h e he).1, (h e he).2.1⟩),
    countOccs_bodyPat_blocks chain (fun e he => ⟨(h e he).2.2.1, (h e he).2.2.2⟩),
    rfl⟩

theorem marker_counts_of_clean_fields_witness :
    countOccs subjPat
        (format_conversation_for_llm
          [⟨"Hello", "World", "", "", ""⟩, ⟨"Re: Hello", "Thanks", "", "", ""⟩]).data = 2
    ∧ countOccs bodyPat
        (format_conversation_for_llm
          [⟨"Hello", "World", "", "", ""⟩, ⟨"Re: Hello", "Thanks", "", "", ""⟩]).data = 2
    ∧ (format_conversation_for_llm
          [⟨"Hello", "World", "", "", ""⟩, ⟨"Re: Hello", "Thanks", "", "", ""⟩]).data =
        blocksData [⟨"Hello", "World", "", "", ""⟩, ⟨"Re: Hello", "Thanks", "", "", ""⟩] :=
  marker_counts_of_clean_fields
    [⟨"Hello", "World", "", "", ""⟩, ⟨"Re: Hello", "Thanks", "", "", ""⟩]
    (by decide)
